import Mathlib

/-!
Shallow embedding of the prefixed-api-key library (src/unnamed/part_000).

JavaScript strings are modelled as `List Char`; option-object field values
are modelled by `JSVal` (undefined, string, or number), numbers as exact
rationals (every value the validators compare against is exactly
representable). Fallible functions return `Except (List Char) _`, the
payload being the thrown error message. The entropy draws of
`node:crypto`'s `randomBytes` are passed in explicitly as byte lists
(`shortBytes`, `longBytes`), standing for the `shortTokenLength ?? 8` and
`longTokenLength ?? 24` byte draws of the source.
-/

namespace PrefixedApiKey

/-- A JavaScript value as it can appear in a `GenerateAPIKeyOptions` field:
`undefined`, a string, or a number. -/
inductive JSVal where
  | undefined : JSVal
  | str : List Char → JSVal
  | num : ℚ → JSVal
deriving DecidableEq

/-- JavaScript truthiness of a `JSVal`: `undefined`, `""` and `0` are falsy. -/
def JSVal.truthy : JSVal → Bool
  | .undefined => false
  | .str s => decide (s ≠ [])
  | .num q => decide (q ≠ 0)

/-- The `GenerateAPIKeyOptions` interface of the source (part_000 lines 6-11):
all four fields may be absent (`undefined`) or hold any JS value at run time. -/
structure GenerateAPIKeyOptions where
  keyPrefix : JSVal
  shortTokenPrefix : JSVal
  shortTokenLength : JSVal
  longTokenLength : JSVal
deriving DecidableEq

/-- The `APIKey` interface of the source (part_000 lines 13-18). -/
structure APIKey where
  shortToken : List Char
  longToken : List Char
  longTokenHash : List Char
  token : List Char
deriving DecidableEq

/-- The anonymous record returned by `getTokenComponents` (part_000 lines
131-139): `shortToken` can be `undefined` for malformed tokens, hence `Option`. -/
structure TokenComponents where
  longToken : List Char
  shortToken : Option (List Char)
  longTokenHash : List Char
  token : List Char
deriving DecidableEq

/-- Error message of part_000 line 49. -/
def optionsRequiredMsg : List Char := ("options object is required").data

/-- Error message of part_000 line 61. -/
def keyPrefixMsg : List Char :=
  ("keyPrefix is required and must only contain lowercase letters and numbers (a-z), or underscore (_)").data

/-- Error message of part_000 line 71. -/
def shortTokenPrefixMsg : List Char :=
  ("shortTokenPrefix must only contain lowercase letters and numbers").data

/-- Error message of part_000 line 81. -/
def shortTokenLengthMsg : List Char :=
  ("shortTokenLength must be a number between 4 and 24").data

/-- Error message of part_000 line 90. -/
def longTokenLengthMsg : List Char :=
  ("longTokenLength must be a number between 4 and 24").data

/-- Modelled from the spec: the entropy source (§4.1) requires an integer
byte count; `node:crypto`'s `randomBytes` (not part of src/) throws a
range/type error when its `size` argument is not a nonnegative integer
number. The exact message is node's, not the library's. -/
def entropySizeMsg : List Char := ("The value of size is out of range").data

/-- One character of the `^[a-z0-9_]+$` test of part_000 line 58. -/
def keyPrefixCharOK (c : Char) : Bool :=
  (decide ('a' ≤ c) && decide (c ≤ 'z')) || (decide ('0' ≤ c) && decide (c ≤ '9')) || decide (c = '_')

/-- The regex test `/^[a-z0-9_]+$/.test s` of part_000 line 58. -/
def testKeyPrefixRegex (s : List Char) : Bool :=
  decide (s ≠ []) && s.all keyPrefixCharOK

/-- One character of the `^[a-z0-9]+$` test of part_000 line 68. -/
def shortTokenPrefixCharOK (c : Char) : Bool :=
  (decide ('a' ≤ c) && decide (c ≤ 'z')) || (decide ('0' ≤ c) && decide (c ≤ '9'))

/-- The regex test `/^[a-z0-9]+$/.test s` of part_000 line 68. -/
def testShortTokenPrefixRegex (s : List Char) : Bool :=
  decide (s ≠ []) && s.all shortTokenPrefixCharOK

/-- The condition of part_000 lines 55-59 negated: `keyPrefix` passes iff it
is truthy, a string, and matches the regex (a falsy string `""` fails the
regex's `+` anyway, so truthiness folds into the regex test). -/
def keyPrefixOK : JSVal → Bool
  | .str s => testKeyPrefixRegex s
  | _ => false

/-- The condition of part_000 lines 65-69: truthy and (non-string or
failing the regex). -/
def shortTokenPrefixBad (v : JSVal) : Bool :=
  JSVal.truthy v &&
    (match v with
      | .str s => ! testShortTokenPrefixRegex s
      | _ => true)

/-- The condition of part_000 lines 75-80 (and identically 84-89): truthy
and (non-number, or < 4, or > 24). Note: no integrality test. -/
def lengthFieldBad (v : JSVal) : Bool :=
  JSVal.truthy v &&
    (match v with
      | .num q => decide (q < 4) || decide (24 < q)
      | _ => true)

/-- The four validation `if`-`throw` blocks of part_000 lines 55-91, in
source order, returning the first error message thrown (or `none`). -/
def validateOptions (o : GenerateAPIKeyOptions) : Option (List Char) :=
  match o with
  | ⟨kp, stp, stl, ltl⟩ =>
    if ! keyPrefixOK kp then some keyPrefixMsg
    else if shortTokenPrefixBad stp then some shortTokenPrefixMsg
    else if lengthFieldBad stl then some shortTokenLengthMsg
    else if lengthFieldBad ltl then some longTokenLengthMsg
    else none

/-- The bs58 (base-x) alphabet used by the `bs58` dependency. -/
def base58Alphabet : List Char :=
  ("123456789ABCDEFGHJKLMNPQRSTUVWXYZabcdefghijkmnopqrstuvwxyz").data

/-- Big-endian value of a byte list. -/
def beValue (bytes : List ℕ) : ℕ := bytes.foldl (fun a b => a * 256 + b) 0

/-- Base-58 digit extraction (most significant last before the reverse),
fuelled by a list for structural recursion; `n = 0` yields no digits, as in
base-x. -/
def b58digitsAux : List Unit → ℕ → List ℕ
  | [], _ => []
  | _ :: fs, n => if n = 0 then [] else n % 58 :: b58digitsAux fs (n / 58)

/-- Embedding of `bs58.encode` (the base-x algorithm of the `bs58` dependency): one `'1'`
per leading zero byte, then the big-endian base-58 digits of the byte
value mapped through the alphabet. `2 * bytes.length` units of fuel suffice
since `256 ^ L < 58 ^ (2 * L)`. -/
def bs58encode (bytes : List ℕ) : List Char :=
  List.replicate (bytes.takeWhile (fun b => b == 0)).length '1'
    ++ ((b58digitsAux (List.replicate (2 * bytes.length) ()) (beValue bytes)).reverse.map
      (fun d => base58Alphabet.getD d '?'))

/-- lodash `padStart(s, len, c)` with a one-character pad, as called at
part_000 lines 100-110: a missing length behaves as 0 (no padding). -/
def jsPadStart (s : List Char) (len : Option ℕ) (c : Char) : List Char :=
  match len with
  | none => s
  | some n => List.replicate (n - s.length) c ++ s

/-- JavaScript `s.slice(0, stop)` as called at part_000 lines 104, 110 and
114-117: `undefined` stop keeps the whole string. -/
def jsSliceTo (s : List Char) (stop : Option ℕ) : List Char :=
  match stop with
  | none => s
  | some n => s.take n

/-- Reduction modulo 2^32 (32-bit wraparound). -/
def w32 (n : ℕ) : ℕ := n % 4294967296

/-- Rotate right on 32-bit words. -/
def rotr32 (k x : ℕ) : ℕ := w32 ((x >>> k) ||| (x <<< (32 - k)))

/-- SHA-256 Ch. -/
def ch32 (x y z : ℕ) : ℕ := (x &&& y) ^^^ ((x ^^^ 4294967295) &&& z)

/-- SHA-256 Maj. -/
def maj32 (x y z : ℕ) : ℕ := ((x &&& y) ^^^ (x &&& z)) ^^^ (y &&& z)

/-- SHA-256 Σ0. -/
def bigSigma0 (x : ℕ) : ℕ := (rotr32 2 x ^^^ rotr32 13 x) ^^^ rotr32 22 x

/-- SHA-256 Σ1. -/
def bigSigma1 (x : ℕ) : ℕ := (rotr32 6 x ^^^ rotr32 11 x) ^^^ rotr32 25 x

/-- SHA-256 σ0. -/
def smallSigma0 (x : ℕ) : ℕ := (rotr32 7 x ^^^ rotr32 18 x) ^^^ (x >>> 3)

/-- SHA-256 σ1. -/
def smallSigma1 (x : ℕ) : ℕ := (rotr32 17 x ^^^ rotr32 19 x) ^^^ (x >>> 10)

/-- SHA-256 round constants (FIPS 180-4, written in decimal). -/
def sha256K : List ℕ :=
  [1116352408, 1899447441, 3049323471, 3921009573, 961987163,
   1508970993, 2453635748, 2870763221, 3624381080, 310598401,
   607225278, 1426881987, 1925078388, 2162078206, 2614888103,
   3248222580, 3835390401, 4022224774, 264347078, 604807628,
   770255983, 1249150122, 1555081692, 1996064986, 2554220882,
   2821834349, 2952996808, 3210313671, 3336571891, 3584528711,
   113926993, 338241895, 666307205, 773529912, 1294757372,
   1396182291, 1695183700, 1986661051, 2177026350, 2456956037,
   2730485921, 2820302411, 3259730800, 3345764771, 3516065817,
   3600352804, 4094571909, 275423344, 430227734, 506948616,
   659060556, 883997877, 958139571, 1322822218, 1537002063,
   1747873779, 1955562222, 2024104815, 2227730452, 2361852424,
   2428436474, 2756734187, 3204031479, 3329325298]

/-- SHA-256 initial hash value (FIPS 180-4, written in decimal). -/
def sha256H0 : List ℕ :=
  [1779033703, 3144134277, 1013904242, 2773480762,
   1359893119, 2600822924, 528734635, 1541459225]

/-- One message-schedule extension step on the reversed schedule
(head = most recent word). -/
def scheduleStep (rws : List ℕ) : List ℕ :=
  w32 (smallSigma1 (rws.getD 1 0) + rws.getD 6 0 + smallSigma0 (rws.getD 14 0) + rws.getD 15 0) :: rws

/-- The 64-word SHA-256 message schedule of a 16-word block. -/
def sha256Schedule (block : List ℕ) : List ℕ :=
  (Nat.repeat scheduleStep 48 block.reverse).reverse

/-- One SHA-256 round on the 8-word working state, `kw` being `K[i] + W[i]`
(mod 2^32). -/
def sha256Round (st : List ℕ) (kw : ℕ) : List ℕ :=
  match st with
  | [a, b, c, d, e, f, g, h] =>
    let t1 := w32 (h + bigSigma1 e + ch32 e f g + kw)
    let t2 := w32 (bigSigma0 a + maj32 a b c)
    [w32 (t1 + t2), a, b, c, w32 (d + t1), e, f, g]
  | st => st

/-- SHA-256 compression of one 16-word block into the 8-word hash state. -/
def sha256Compress (h : List ℕ) (block : List ℕ) : List ℕ :=
  let st := List.foldl sha256Round h (List.zipWith (fun k w => w32 (k + w)) sha256K (sha256Schedule block))
  List.zipWith (fun x y => w32 (x + y)) h st

/-- Big-endian bytes of a value, `k` bytes wide. -/
def beBytes : ℕ → ℕ → List ℕ
  | 0, _ => []
  | k + 1, v => ((v >>> (8 * k)) % 256) :: beBytes k v

/-- SHA-256 message padding: `0x80`, zeros to 56 mod 64, 8-byte big-endian
bit length. -/
def sha256Pad (bytes : List ℕ) : List ℕ :=
  bytes ++ 128 :: (List.replicate ((64 - (bytes.length + 9) % 64) % 64) 0 ++ beBytes 8 (8 * bytes.length))

/-- Group bytes into big-endian 32-bit words. -/
def wordsOf4 : List ℕ → List ℕ
  | b0 :: b1 :: b2 :: b3 :: rest => (((b0 * 256 + b1) * 256 + b2) * 256 + b3) :: wordsOf4 rest
  | _ => []

/-- Group words into 16-word blocks (accumulator reversed). -/
def blocksOf16Aux : List ℕ → List ℕ → List (List ℕ)
  | [], cur => if cur = [] then [] else [cur.reverse]
  | w :: rest, cur =>
    if cur.length = 15 then (w :: cur).reverse :: blocksOf16Aux rest []
    else blocksOf16Aux rest (w :: cur)

/-- Group words into 16-word blocks. -/
def blocksOf16 (ws : List ℕ) : List (List ℕ) := blocksOf16Aux ws []

/-- SHA-256 of a byte list, as eight 32-bit words. -/
def sha256Words (bytes : List ℕ) : List ℕ :=
  List.foldl sha256Compress sha256H0 (blocksOf16 (wordsOf4 (sha256Pad bytes)))

/-- Lowercase hex digit. -/
def hexDigit (n : ℕ) : Char := ("0123456789abcdef").data.getD n '?'

/-- Eight lowercase hex digits of a 32-bit word, most significant first. -/
def hexOfWord (w : ℕ) : List Char :=
  (List.range 8).map (fun i => hexDigit ((w >>> (4 * (7 - i))) % 16))

/-- Lowercase hex SHA-256 digest of a byte list. -/
def sha256hex (bytes : List ℕ) : List Char := ((sha256Words bytes).map hexOfWord).flatten

/-- UTF-8 encoding of one character (node's `hash.update(string)` uses
UTF-8). -/
def utf8Encode (c : Char) : List ℕ :=
  let v := c.toNat
  if v < 128 then [v]
  else if v < 2048 then [192 + v / 64, 128 + v % 64]
  else if v < 65536 then [224 + v / 4096, 128 + (v / 64) % 64, 128 + v % 64]
  else [240 + v / 262144, 128 + (v / 4096) % 64, 128 + (v / 64) % 64, 128 + v % 64]

/-- Embedding of `hashLongToken` of part_000 lines 141-143: hex SHA-256 of the UTF-8
bytes of the string (`createHash("sha256").update(s).digest("hex")`). -/
def hashLongToken (longToken : List Char) : List Char :=
  sha256hex ((longToken.map utf8Encode).flatten)

/-- JavaScript `t.split("_")` (single-character separator, no limit). -/
def splitOnChar (sep : Char) : List Char → List (List Char)
  | [] => [[]]
  | c :: rest =>
    match splitOnChar sep rest with
    | [] => [[]]
    | s :: ss => if c = sep then [] :: s :: ss else (c :: s) :: ss

/-- Embedding of `extractLongToken` of part_000 lines 27-32: split on `'_'` and take the
last item (`.slice(-1)?.[0]`; the split of any string is nonempty, so the
`[]` branch is unreachable). -/
def extractLongToken (token : List Char) : List Char :=
  match (splitOnChar '_' token).reverse with
  | l :: _ => l
  | [] => []

/-- Embedding of `extractShortToken` of part_000 lines 38-43: split on `'_'` and take the
second-to-last item (`.slice(-2, -1)?.[0]`), which is `undefined` (`none`)
when there are fewer than two items. -/
def extractShortToken (token : List Char) : Option (List Char) :=
  match (splitOnChar '_' token).reverse with
  | _ :: s :: _ => some s
  | _ => none

/-- Embedding of `extractLongTokenHash` of part_000 lines 34-36. -/
def extractLongTokenHash (token : List Char) : List Char :=
  hashLongToken (extractLongToken token)

/-- Embedding of `checkAPIKey` of part_000 lines 20-25: strict equality of the recomputed
hash with the expected one. -/
def checkAPIKey (token expectedLongTokenHash : List Char) : Bool :=
  hashLongToken (extractLongToken token) == expectedLongTokenHash

/-- Embedding of `getTokenComponents` of part_000 lines 131-139. -/
def getTokenComponents (token : List Char) : TokenComponents :=
  let longToken := extractLongToken token
  ⟨longToken, extractShortToken token, hashLongToken longToken, token⟩

/-- Modelled from the spec: the entropy source (§4.1) takes an integer byte
count. `randomBytes(size)` with `size` one of the option values that survive
validation accepts `undefined ?? default` and nonnegative integer numbers,
and throws for anything else (non-integer numbers like 4.5, strings);
`some none` means "undefined, the `?? default` applies", `none` means the
entropy source throws. -/
def effectiveLen : JSVal → Option (Option ℕ)
  | .undefined => some none
  | .num q => if q.den = 1 ∧ 0 ≤ q then some (some q.num.toNat) else none
  | .str _ => none

/-- String coercion of an options field as used after validation: the
template literal and interpolations of part_000 lines 114-119 only ever see
a string (validation rules out truthy non-strings), and falsy values
contribute the empty string. -/
def strOf : JSVal → List Char
  | .str s => s
  | _ => []

/-- The assembly of part_000 lines 100-126: pad the base58 encodings with
`'0'` to the requested lengths and truncate (`padStart(...).slice(0, len)`),
hash the long token, prepend the short-token prefix and re-truncate, and
join `keyPrefix_shortToken_longToken`. -/
def assembleAPIKey (kp stp : List Char) (stl ltl : Option ℕ) (shortBytes longBytes : List ℕ) : APIKey :=
  let shortTokenEnc := jsSliceTo (jsPadStart (bs58encode shortBytes) stl '0') stl
  let longToken := jsSliceTo (jsPadStart (bs58encode longBytes) ltl '0') ltl
  let longTokenHash := hashLongToken longToken
  let shortToken := jsSliceTo (stp ++ shortTokenEnc) stl
  ⟨shortToken, longToken, longTokenHash, kp ++ '_' :: (shortToken ++ '_' :: longToken)⟩

/-- Embedding of `generateAPIKey` of part_000 lines 45-129. The argument `o` is `none`
when no options object is passed; `shortBytes` and `longBytes` are the two
`randomBytes` draws (of `shortTokenLength ?? 8` resp. `longTokenLength ?? 24`
bytes in the source). Validation runs before any entropy is used. -/
def generateAPIKey (o : Option GenerateAPIKeyOptions) (shortBytes longBytes : List ℕ) :
    Except (List Char) APIKey :=
  match o with
  | none => Except.error optionsRequiredMsg
  | some ⟨kp, stp, stl, ltl⟩ =>
    match validateOptions ⟨kp, stp, stl, ltl⟩ with
    | some e => Except.error e
    | none =>
      match effectiveLen stl, effectiveLen ltl with
      | some stlN, some ltlN =>
        Except.ok (assembleAPIKey (strOf kp) (strOf stp) stlN ltlN shortBytes longBytes)
      | _, _ => Except.error entropySizeMsg

/-- The rational 4.5 = 9/2 in reduced normal form (so that the validator
can be evaluated on it by kernel reduction). -/
def fourPointFive : ℚ := ⟨9, 2, by decide, by decide⟩

/-! ### Helper lemmas -/

theorem fourPointFive_eq : fourPointFive = (9 : ℚ) / 2 := by
  rw [fourPointFive, Rat.mk'_eq_divInt, Rat.divInt_eq_div]
  norm_num

theorem splitOnChar_ne_nil (sep : Char) (cs : List Char) : splitOnChar sep cs ≠ [] := by
  cases cs with
  | nil => simp [splitOnChar]
  | cons c rest =>
    unfold splitOnChar
    cases splitOnChar sep rest with
    | nil => simp
    | cons s ss =>
      by_cases hc : c = sep
      · simp [hc]
      · simp [hc]

theorem splitOnChar_append (sep : Char) (xs ys : List Char) :
    splitOnChar sep (xs ++ sep :: ys) = splitOnChar sep xs ++ splitOnChar sep ys := by
  induction xs with
  | nil =>
    cases h : splitOnChar sep ys with
    | nil => exact absurd h (splitOnChar_ne_nil sep ys)
    | cons s ss => simp [splitOnChar, h]
  | cons c xs ih =>
    cases h : splitOnChar sep xs with
    | nil => exact absurd h (splitOnChar_ne_nil sep xs)
    | cons s ss =>
      by_cases hc : c = sep
      · simp [splitOnChar, ih, h, hc]
      · simp [splitOnChar, ih, h, hc]

theorem splitOnChar_of_not_mem (sep : Char) (cs : List Char) (h : sep ∉ cs) :
    splitOnChar sep cs = [cs] := by
  induction cs with
  | nil => simp [splitOnChar]
  | cons c rest ih =>
    rw [List.mem_cons, not_or] at h
    obtain ⟨h1, h2⟩ := h
    simp [splitOnChar, ih h2, Ne.symm h1]

theorem splitOnChar_length (sep : Char) (cs : List Char) :
    (splitOnChar sep cs).length = cs.count sep + 1 := by
  induction cs with
  | nil => simp [splitOnChar]
  | cons c rest ih =>
    cases h : splitOnChar sep rest with
    | nil => exact absurd h (splitOnChar_ne_nil sep rest)
    | cons s ss =>
      rw [h] at ih
      by_cases hc : c = sep
      · subst hc
        simp only [splitOnChar, h]
        simp only [List.length_cons] at ih
        simp [List.count_cons_self]
        omega
      · simp only [splitOnChar, h, if_neg hc, List.length_cons]
        rw [List.count_cons_of_ne (Ne.symm hc)]
        simp only [List.length_cons] at ih
        omega

theorem getD_ne_underscore (l : List Char) (d : ℕ) (a : Char) (ha : a ≠ '_')
    (hl : ∀ c ∈ l, c ≠ '_') : l.getD d a ≠ '_' := by
  induction l generalizing d with
  | nil => simpa [List.getD]
  | cons x xs ih =>
    cases d with
    | zero => simpa using hl x (List.mem_cons_self x xs)
    | succ n =>
      rw [List.getD_cons_succ]
      exact ih n (fun c hc => hl c (List.mem_cons_of_mem x hc))

theorem underscore_not_mem_bs58encode (bytes : List ℕ) : '_' ∉ bs58encode bytes := by
  unfold bs58encode
  intro h
  rcases List.mem_append.1 h with h | h
  · exact absurd (List.eq_of_mem_replicate h) (by decide)
  · rcases List.mem_map.1 h with ⟨d, _, hd⟩
    exact getD_ne_underscore base58Alphabet d '?' (by decide) (by decide) hd

theorem underscore_not_mem_jsPadStart (s : List Char) (len : Option ℕ) (h : '_' ∉ s) :
    '_' ∉ jsPadStart s len '0' := by
  cases len with
  | none => simpa [jsPadStart]
  | some n =>
    simp only [jsPadStart]
    intro hm
    rcases List.mem_append.1 hm with hm | hm
    · exact absurd (List.eq_of_mem_replicate hm) (by decide)
    · exact h hm

theorem underscore_not_mem_jsSliceTo (s : List Char) (stop : Option ℕ) (h : '_' ∉ s) :
    '_' ∉ jsSliceTo s stop := by
  cases stop with
  | none => simpa [jsSliceTo]
  | some n => exact fun hm => h (List.take_subset n s hm)

theorem underscore_not_mem_strOf_stp (v : JSVal) (h : shortTokenPrefixBad v = false) :
    '_' ∉ strOf v := by
  cases v with
  | undefined => simp [strOf]
  | num q => simp [strOf]
  | str s =>
    simp only [strOf]
    by_cases hs : s = []
    · subst hs; simp
    · have ht : testShortTokenPrefixRegex s = true := by
        simp [shortTokenPrefixBad, JSVal.truthy, hs] at h
        exact h
      simp only [testShortTokenPrefixRegex, Bool.and_eq_true, List.all_eq_true] at ht
      intro hm
      exact absurd (ht.2 '_' hm) (by decide)

theorem extract_of_wellformed (kp st lt : List Char) (hst : '_' ∉ st) (hlt : '_' ∉ lt) :
    extractLongToken (kp ++ '_' :: (st ++ '_' :: lt)) = lt ∧
    extractShortToken (kp ++ '_' :: (st ++ '_' :: lt)) = some st := by
  have h1 : splitOnChar '_' (kp ++ '_' :: (st ++ '_' :: lt))
      = splitOnChar '_' kp ++ ([st] ++ [lt]) := by
    rw [splitOnChar_append, splitOnChar_append,
      splitOnChar_of_not_mem _ _ hst, splitOnChar_of_not_mem _ _ hlt]
  constructor
  · unfold extractLongToken
    rw [h1]
    simp [List.reverse_append]
  · unfold extractShortToken
    rw [h1]
    simp [List.reverse_append]

theorem extractLongToken_eq_getLastD (t : List Char) :
    extractLongToken t = (splitOnChar '_' t).getLastD [] := by
  unfold extractLongToken
  cases hr : (splitOnChar '_' t).reverse with
  | nil => exact absurd (List.reverse_eq_nil_iff.1 hr) (splitOnChar_ne_nil '_' t)
  | cons l rest =>
    have : splitOnChar '_' t = rest.reverse ++ [l] := by
      have := congrArg List.reverse hr
      simpa using this
    rw [this, List.getLastD_concat]

theorem extractShortToken_eq (t : List Char) :
    extractShortToken t = (splitOnChar '_' t).reverse[1]? := by
  unfold extractShortToken
  cases hr : (splitOnChar '_' t).reverse with
  | nil => simp
  | cons l rest =>
    cases rest with
    | nil => simp
    | cons s rest2 => simp

theorem validateOptions_none_iff (kp stp stl ltl : JSVal) :
    validateOptions ⟨kp, stp, stl, ltl⟩ = none ↔
      keyPrefixOK kp = true ∧ shortTokenPrefixBad stp = false ∧
      lengthFieldBad stl = false ∧ lengthFieldBad ltl = false := by
  cases h1 : keyPrefixOK kp <;> cases h2 : shortTokenPrefixBad stp <;>
    cases h3 : lengthFieldBad stl <;> cases h4 : lengthFieldBad ltl <;>
    simp [validateOptions, h1, h2, h3, h4]

theorem lengthFieldBad_iff (v : JSVal) :
    lengthFieldBad v = true ↔
      (JSVal.truthy v = true ∧ ¬∃ q : ℚ, v = .num q ∧ 4 ≤ q ∧ q ≤ 24) := by
  cases v with
  | undefined => simp [lengthFieldBad, JSVal.truthy]
  | str s =>
    simp [lengthFieldBad, JSVal.truthy]
  | num q =>
    simp only [lengthFieldBad, JSVal.truthy, Bool.and_eq_true, decide_eq_true_eq,
      Bool.or_eq_true, JSVal.num.injEq]
    constructor
    · rintro ⟨hq, h⟩
      refine ⟨hq, ?_⟩
      rintro ⟨q2, rfl, h4, h24⟩
      rcases h with h | h
      · exact absurd h4 (not_le.2 h)
      · exact absurd h24 (not_le.2 h)
    · rintro ⟨hq, h⟩
      refine ⟨hq, ?_⟩
      by_contra hc
      push_neg at hc
      exact h ⟨q, rfl, hc.1, hc.2⟩

theorem generateAPIKey_ok (kp stp stl ltl : JSVal) (sb lb : List ℕ) (k : APIKey)
    (h : generateAPIKey (some ⟨kp, stp, stl, ltl⟩) sb lb = Except.ok k) :
    validateOptions ⟨kp, stp, stl, ltl⟩ = none ∧
    ∃ stlN ltlN, effectiveLen stl = some stlN ∧ effectiveLen ltl = some ltlN ∧
      k = assembleAPIKey (strOf kp) (strOf stp) stlN ltlN sb lb := by
  simp only [generateAPIKey] at h
  cases hv : validateOptions ⟨kp, stp, stl, ltl⟩ with
  | some e => rw [hv] at h; exact absurd h (by simp)
  | none =>
    rw [hv] at h
    cases hs : effectiveLen stl with
    | none => rw [hs] at h; exact absurd h (by simp)
    | some stlN =>
      cases hl : effectiveLen ltl with
      | none => rw [hs, hl] at h; exact absurd h (by simp)
      | some ltlN =>
        rw [hs, hl] at h
        simp only [Except.ok.injEq] at h
        exact ⟨rfl, stlN, ltlN, rfl, rfl, h.symm⟩

theorem keyPrefixOK_str (kp : JSVal) (h : keyPrefixOK kp = true) :
    ∃ s, kp = .str s ∧ testKeyPrefixRegex s = true := by
  cases kp with
  | undefined => exact absurd h (by simp [keyPrefixOK])
  | num q => exact absurd h (by simp [keyPrefixOK])
  | str s => exact ⟨s, rfl, h⟩

theorem jsPadStart_le_length (s : List Char) (n : ℕ) (c : Char) :
    n ≤ (jsPadStart s (some n) c).length := by
  simp [jsPadStart]
  omega

theorem jsSliceTo_length (s : List Char) (n : ℕ) (h : n ≤ s.length) :
    (jsSliceTo s (some n)).length = n := by
  simp [jsSliceTo, Nat.min_eq_left h]

theorem getTokenComponents_assembled (kp st lt : List Char) (hst : '_' ∉ st) (hlt : '_' ∉ lt) :
    getTokenComponents (kp ++ '_' :: (st ++ '_' :: lt)) =
      ⟨lt, some st, hashLongToken lt, kp ++ '_' :: (st ++ '_' :: lt)⟩ := by
  obtain ⟨h1, h2⟩ := extract_of_wellformed kp st lt hst hlt
  simp [getTokenComponents, h1, h2]

theorem underscore_not_mem_assemble_short (stp enc : List Char) (stl : Option ℕ)
    (hstp : '_' ∉ stp) (henc : '_' ∉ enc) :
    '_' ∉ jsSliceTo (stp ++ jsSliceTo (jsPadStart enc stl '0') stl) stl := by
  apply underscore_not_mem_jsSliceTo
  intro hm
  rcases List.mem_append.1 hm with hm | hm
  · exact hstp hm
  · exact underscore_not_mem_jsSliceTo _ _ (underscore_not_mem_jsPadStart _ _ henc) hm

theorem effectiveLen_natCast (n : ℕ) : effectiveLen (JSVal.num (n : ℚ)) = some (some n) := by
  simp [effectiveLen]

theorem effectiveLen_undefined : effectiveLen JSVal.undefined = some none := rfl

theorem take_append_left (l1 l2 : List Char) (n : ℕ) (h : n ≤ l1.length) :
    (l1 ++ l2).take n = l1.take n := by
  induction l1 generalizing n with
  | nil =>
    simp only [List.length_nil, Nat.le_zero] at h
    simp [h]
  | cons x xs ih =>
    cases n with
    | zero => simp
    | succ m =>
      simp only [List.cons_append, List.take_succ_cons]
      rw [ih m (by simpa using h)]

theorem take_min_length (l : List Char) (n : ℕ) : l.take (min l.length n) = l.take n := by
  rw [← List.take_take]
  exact List.take_of_length_le (by rw [List.length_take]; exact Nat.min_le_right n l.length)

theorem generated_key_extracts (kp stp stl ltl : JSVal) (sb lb : List ℕ) (k : APIKey)
    (h : generateAPIKey (some ⟨kp, stp, stl, ltl⟩) sb lb = Except.ok k) :
    extractLongToken k.token = k.longToken ∧
    extractShortToken k.token = some k.shortToken ∧
    k.longTokenHash = hashLongToken k.longToken ∧
    k.token = strOf kp ++ '_' :: (k.shortToken ++ '_' :: k.longToken) := by
  obtain ⟨hv, stlN, ltlN, hs, hl, hk⟩ := generateAPIKey_ok kp stp stl ltl sb lb k h
  obtain ⟨hkp, hstp, _, _⟩ := (validateOptions_none_iff kp stp stl ltl).1 hv
  subst hk
  have hstpU : '_' ∉ strOf stp := underscore_not_mem_strOf_stp stp hstp
  have hshort : '_' ∉ jsSliceTo (strOf stp ++ jsSliceTo (jsPadStart (bs58encode sb) stlN '0') stlN) stlN :=
    underscore_not_mem_assemble_short _ _ _ hstpU (underscore_not_mem_bs58encode sb)
  have hlong : '_' ∉ jsSliceTo (jsPadStart (bs58encode lb) ltlN '0') ltlN :=
    underscore_not_mem_jsSliceTo _ _ (underscore_not_mem_jsPadStart _ _ (underscore_not_mem_bs58encode lb))
  obtain ⟨he1, he2⟩ := extract_of_wellformed (strOf kp) _ _ hshort hlong
  exact ⟨he1, he2, rfl, rfl⟩

/-! ### Claim theorems -/

/-- C1 (corrected) counterexample: with `shortTokenLength` and
`longTokenLength` both omitted, the generated tokens are the raw base58
encodings of the 8 and 24 random bytes, here of lengths 11 and 33, not the
claimed defaults 8 and 24. -/
theorem generateAPIKey_default_length_cex :
    (generateAPIKey (some ⟨JSVal.str ("a").data, JSVal.undefined, JSVal.undefined, JSVal.undefined⟩)
        (List.replicate 8 255) (List.replicate 24 255)).map
      (fun k => (k.shortToken.length, k.longToken.length)) = Except.ok (11, 33) ∧
    ¬((11, 33) = ((8 : ℕ), (24 : ℕ))) := by
  exact ⟨rfl, by decide⟩

/-- C1 (amended): for every successful `generateAPIKey` call, if
`shortTokenLength` (resp. `longTokenLength`) is a number `n`, the returned
`shortToken` (resp. `longToken`) has length exactly `n` (base58 encoding
left-padded with `'0'` and truncated); if the field is omitted, no padding
or truncation happens and the token is the raw base58 encoding (with the
short-token prefix prepended untruncated), so its length is not fixed. -/
theorem generateAPIKey_token_lengths (kp stp stl ltl : JSVal) (sb lb : List ℕ) (k : APIKey)
    (h : generateAPIKey (some ⟨kp, stp, stl, ltl⟩) sb lb = Except.ok k) :
    (∀ n : ℕ, stl = JSVal.num (n : ℚ) → k.shortToken.length = n) ∧
    (∀ n : ℕ, ltl = JSVal.num (n : ℚ) → k.longToken.length = n) ∧
    (stl = JSVal.undefined → k.shortToken = strOf stp ++ bs58encode sb) ∧
    (ltl = JSVal.undefined → k.longToken = bs58encode lb) := by
  obtain ⟨hv, stlN, ltlN, hs, hl, hk⟩ := generateAPIKey_ok kp stp stl ltl sb lb k h
  subst hk
  refine ⟨?_, ?_, ?_, ?_⟩
  · rintro n rfl
    rw [effectiveLen_natCast] at hs
    obtain rfl : stlN = some n := (Option.some.inj hs).symm
    show (jsSliceTo (strOf stp ++ jsSliceTo (jsPadStart (bs58encode sb) (some n) '0') (some n))
        (some n)).length = n
    apply jsSliceTo_length
    rw [List.length_append, jsSliceTo_length _ _ (jsPadStart_le_length _ _ _)]
    omega
  · rintro n rfl
    rw [effectiveLen_natCast] at hl
    obtain rfl : ltlN = some n := (Option.some.inj hl).symm
    exact jsSliceTo_length _ _ (jsPadStart_le_length _ _ _)
  · rintro rfl
    rw [effectiveLen_undefined] at hs
    obtain rfl : stlN = none := (Option.some.inj hs).symm
    rfl
  · rintro rfl
    rw [effectiveLen_undefined] at hl
    obtain rfl : ltlN = none := (Option.some.inj hl).symm
    rfl

/-- C1 witness: a successful call with explicit lengths 4 and 5 produces
tokens of those exact lengths. -/
theorem generateAPIKey_token_lengths_witness :
    ("2VfU").data.length = 4 ∧ ("226gj").data.length = 5 := by
  have h := generateAPIKey_token_lengths (JSVal.str ("my_company").data) JSVal.undefined
      (JSVal.num ((4 : ℕ) : ℚ)) (JSVal.num ((5 : ℕ) : ℚ)) [1, 2, 3, 4] [9, 8, 7, 6, 5]
      ⟨("2VfU").data, ("226gj").data,
        ("c483b208338d5c718c037e5e107bc16f445efff742ba46b26cb8bcf4fd2fd33d").data,
        ("my_company_2VfU_226gj").data⟩ rfl
  exact ⟨h.1 4 rfl, h.2.1 5 rfl⟩

/-- C2: for every APIKey produced by a successful `generateAPIKey` call,
`getTokenComponents` of its token returns exactly the key's components
(`shortToken` wrapped in `some`, as the parse can fail in general), the
token having been assembled as `keyPrefix ++ "_" ++ shortToken ++ "_" ++
longToken`. -/
theorem getTokenComponents_roundtrip (kp stp stl ltl : JSVal) (sb lb : List ℕ) (k : APIKey)
    (h : generateAPIKey (some ⟨kp, stp, stl, ltl⟩) sb lb = Except.ok k) :
    getTokenComponents k.token = ⟨k.longToken, some k.shortToken, k.longTokenHash, k.token⟩ ∧
    k.token = strOf kp ++ '_' :: (k.shortToken ++ '_' :: k.longToken) := by
  obtain ⟨h1, h2, h3, h4⟩ := generated_key_extracts kp stp stl ltl sb lb k h
  refine ⟨?_, h4⟩
  simp [getTokenComponents, h1, h2, ← h3]

/-- C2 witness: the round trip at a concrete generated key. -/
theorem getTokenComponents_roundtrip_witness :
    getTokenComponents (("my_company_2VfU_226gj").data) =
      ⟨("226gj").data, some (("2VfU").data),
        ("c483b208338d5c718c037e5e107bc16f445efff742ba46b26cb8bcf4fd2fd33d").data,
        ("my_company_2VfU_226gj").data⟩ ∧
    ("my_company_2VfU_226gj").data =
      ("my_company").data ++ '_' :: (("2VfU").data ++ '_' :: ("226gj").data) := by
  have h := getTokenComponents_roundtrip (JSVal.str ("my_company").data) JSVal.undefined
      (JSVal.num ((4 : ℕ) : ℚ)) (JSVal.num ((5 : ℕ) : ℚ)) [1, 2, 3, 4] [9, 8, 7, 6, 5]
      ⟨("2VfU").data, ("226gj").data,
        ("c483b208338d5c718c037e5e107bc16f445efff742ba46b26cb8bcf4fd2fd33d").data,
        ("my_company_2VfU_226gj").data⟩ rfl
  exact ⟨h.1, h.2⟩

/-- C3: `checkAPIKey t h` is true exactly when the SHA-256 hex digest of the
last `'_'`-delimited segment of `t` equals `h`; for a generated key the
check succeeds on the stored hash and returns `false` (it does not throw:
it is a total Boolean function) on every other string. -/
theorem checkAPIKey_correct :
    (∀ t h : List Char,
      checkAPIKey t h = true ↔ hashLongToken ((splitOnChar '_' t).getLastD []) = h) ∧
    (∀ (kp stp stl ltl : JSVal) (sb lb : List ℕ) (k : APIKey),
      generateAPIKey (some ⟨kp, stp, stl, ltl⟩) sb lb = Except.ok k →
      checkAPIKey k.token k.longTokenHash = true ∧
      ∀ s : List Char, s ≠ k.longTokenHash → checkAPIKey k.token s = false) := by
  constructor
  · intro t h
    simp [checkAPIKey, extractLongToken_eq_getLastD]
  · intro kp stp stl ltl sb lb k h
    obtain ⟨h1, _, h3, _⟩ := generated_key_extracts kp stp stl ltl sb lb k h
    constructor
    · simp [checkAPIKey, h1, ← h3]
    · intro s hs
      simp only [checkAPIKey, h1, ← h3]
      exact beq_false_of_ne (Ne.symm hs)

/-- C3 witness: the check at a concrete generated key, with a matching and a
non-matching hash. -/
theorem checkAPIKey_correct_witness :
    checkAPIKey (("my_company_2VfU_226gj").data)
      (("c483b208338d5c718c037e5e107bc16f445efff742ba46b26cb8bcf4fd2fd33d").data) = true ∧
    checkAPIKey (("my_company_2VfU_226gj").data) (("foo").data) = false := by
  have h := checkAPIKey_correct.2 (JSVal.str ("my_company").data) JSVal.undefined
      (JSVal.num ((4 : ℕ) : ℚ)) (JSVal.num ((5 : ℕ) : ℚ)) [1, 2, 3, 4] [9, 8, 7, 6, 5]
      ⟨("2VfU").data, ("226gj").data,
        ("c483b208338d5c718c037e5e107bc16f445efff742ba46b26cb8bcf4fd2fd33d").data,
        ("my_company_2VfU_226gj").data⟩ rfl
  exact ⟨h.1, h.2 (("foo").data) (by decide)⟩

/-- C4 (corrected) counterexample: `shortTokenLength = 0` is present and
outside [4, 24], yet no validation error is raised: `0` is falsy, the
validator is skipped, and generation succeeds with an empty short token. -/
theorem length_validation_cex :
    validateOptions ⟨JSVal.str ("abc").data, JSVal.undefined, JSVal.num 0, JSVal.undefined⟩ = none ∧
    (generateAPIKey
        (some ⟨JSVal.str ("abc").data, JSVal.undefined, JSVal.num 0, JSVal.undefined⟩)
        [] (List.replicate 24 255)).map (fun k => k.shortToken) = Except.ok [] := by
  exact ⟨rfl, rfl⟩

/-- C4 (amended): a present length field raises its validation error exactly
when it is truthy and not a number in [4, 24]; falsy values (0) skip
validation entirely, and integrality is never checked, so 4.5 passes the
validator. -/
theorem length_validation_characterization (kp stp stl ltl : JSVal)
    (hkp : keyPrefixOK kp = true) (hstp : shortTokenPrefixBad stp = false) :
    (validateOptions ⟨kp, stp, stl, ltl⟩ = some shortTokenLengthMsg ↔
      (JSVal.truthy stl = true ∧ ¬∃ q : ℚ, stl = JSVal.num q ∧ 4 ≤ q ∧ q ≤ 24)) ∧
    (validateOptions ⟨kp, stp, stl, ltl⟩ = some longTokenLengthMsg ↔
      (¬(JSVal.truthy stl = true ∧ ¬∃ q : ℚ, stl = JSVal.num q ∧ 4 ≤ q ∧ q ≤ 24) ∧
        (JSVal.truthy ltl = true ∧ ¬∃ q : ℚ, ltl = JSVal.num q ∧ 4 ≤ q ∧ q ≤ 24))) ∧
    validateOptions ⟨JSVal.str ("abc").data, JSVal.undefined,
      JSVal.num fourPointFive, JSVal.undefined⟩ = none := by
  have hne : shortTokenLengthMsg ≠ longTokenLengthMsg := by decide
  rw [← lengthFieldBad_iff stl, ← lengthFieldBad_iff ltl]
  refine ⟨?_, ?_, by decide⟩ <;>
    cases h1 : lengthFieldBad stl <;> cases h2 : lengthFieldBad ltl <;>
      simp [validateOptions, hkp, hstp, h1, h2, hne, Ne.symm hne]

/-- C4 witness: 3 raises the short-token-length validation error, while 4.5
is accepted by the validator. -/
theorem length_validation_characterization_witness :
    validateOptions ⟨JSVal.str ("abc").data, JSVal.undefined, JSVal.num 3, JSVal.undefined⟩ =
      some shortTokenLengthMsg ∧
    validateOptions ⟨JSVal.str ("abc").data, JSVal.undefined,
      JSVal.num fourPointFive, JSVal.undefined⟩ = none := by
  have h := length_validation_characterization (JSVal.str ("abc").data) JSVal.undefined
      (JSVal.num 3) JSVal.undefined (by decide) (by decide)
  refine ⟨?_, h.2.2⟩
  refine h.1.mpr ⟨by decide, ?_⟩
  rintro ⟨q, hq, h4, h24⟩
  injection hq with hq2
  rw [← hq2] at h4
  norm_num at h4

/-- C5: generation fails with the exact validation error, for all entropy
inputs alike (so validation happens before any entropy is used and no
partial key is produced), when the options object is missing or when
`keyPrefix` is absent, empty, not a string, or contains a character outside
`[a-z0-9_]`; and every validator error is returned unchanged regardless of
the entropy. -/
theorem validation_before_entropy :
    (∀ sb lb : List ℕ, generateAPIKey none sb lb = Except.error optionsRequiredMsg) ∧
    (∀ (kp stp stl ltl : JSVal) (sb lb : List ℕ),
      (kp = JSVal.undefined ∨ kp = JSVal.str [] ∨ (∃ q : ℚ, kp = JSVal.num q) ∨
        (∃ s c, kp = JSVal.str s ∧ c ∈ s ∧ keyPrefixCharOK c = false)) →
      generateAPIKey (some ⟨kp, stp, stl, ltl⟩) sb lb = Except.error keyPrefixMsg) ∧
    (∀ (kp stp stl ltl : JSVal) (e : List Char) (sb lb : List ℕ),
      validateOptions ⟨kp, stp, stl, ltl⟩ = some e →
      generateAPIKey (some ⟨kp, stp, stl, ltl⟩) sb lb = Except.error e) := by
  refine ⟨fun sb lb => rfl, ?_, ?_⟩
  · intro kp stp stl ltl sb lb hdisj
    have hk : keyPrefixOK kp = false := by
      rcases hdisj with rfl | rfl | ⟨q, rfl⟩ | ⟨s, c, rfl, hmem, hbad⟩
      · rfl
      · rfl
      · rfl
      · simp only [keyPrefixOK, testKeyPrefixRegex, Bool.and_eq_false_iff]
        right
        exact List.all_eq_false.2 ⟨c, hmem, by simp [hbad]⟩
    have hv : validateOptions ⟨kp, stp, stl, ltl⟩ = some keyPrefixMsg := by
      simp [validateOptions, hk]
    simp [generateAPIKey, hv]
  · intro kp stp stl ltl e sb lb hv
    simp [generateAPIKey, hv]

/-- C5 witness: the missing-options error, a bad key prefix (`"foo*bar"`),
and a validator error (length 3) all surface unchanged from generation. -/
theorem validation_before_entropy_witness :
    generateAPIKey none [] [] = Except.error optionsRequiredMsg ∧
    generateAPIKey (some ⟨JSVal.str ("foo*bar").data, JSVal.undefined, JSVal.undefined,
      JSVal.undefined⟩) [] [] = Except.error keyPrefixMsg ∧
    generateAPIKey (some ⟨JSVal.str ("abc").data, JSVal.undefined, JSVal.num 3,
      JSVal.undefined⟩) [] [] = Except.error shortTokenLengthMsg := by
  refine ⟨validation_before_entropy.1 [] [], ?_, ?_⟩
  · exact validation_before_entropy.2.1 _ _ _ _ [] []
      (Or.inr (Or.inr (Or.inr ⟨("foo*bar").data, '*', rfl, by decide, by decide⟩)))
  · exact validation_before_entropy.2.2 _ _ _ _ _ [] [] (by decide)

/-- C6: for any token with at least two underscores, `extractLongToken` is
the last `'_'`-delimited segment and `extractShortToken` the second-to-last
one; both are right-anchored, so they recover the components of any
generated key even when its `keyPrefix` contains `'_'`. -/
theorem extract_right_anchored :
    (∀ t : List Char, 2 ≤ t.count '_' →
      extractLongToken t = (splitOnChar '_' t).getLastD [] ∧
      ∃ s, extractShortToken t = some s ∧ (splitOnChar '_' t).reverse[1]? = some s) ∧
    (∀ (kp stp stl ltl : JSVal) (sb lb : List ℕ) (k : APIKey),
      generateAPIKey (some ⟨kp, stp, stl, ltl⟩) sb lb = Except.ok k →
      '_' ∈ strOf kp →
      extractLongToken k.token = k.longToken ∧ extractShortToken k.token = some k.shortToken) := by
  constructor
  · intro t hc
    refine ⟨extractLongToken_eq_getLastD t, ?_⟩
    have h2 : 1 < (splitOnChar '_' t).reverse.length := by
      rw [List.length_reverse, splitOnChar_length]
      omega
    refine ⟨(splitOnChar '_' t).reverse.get ⟨1, h2⟩, ?_, ?_⟩
    · rw [extractShortToken_eq t]
      exact List.getElem?_eq_getElem h2
    · exact List.getElem?_eq_getElem h2
  · intro kp stp stl ltl sb lb k h _
    obtain ⟨h1, h2, _, _⟩ := generated_key_extracts kp stp stl ltl sb lb k h
    exact ⟨h1, h2⟩

/-- C6 witness: a key generated with `keyPrefix = "a_b"` (which contains an
underscore) still round-trips through the extractors, and a token with three
underscores obeys the general statement. -/
theorem extract_right_anchored_witness :
    extractLongToken (("a_b_xW7LcT_11L6").data) = ("11L6").data ∧
    extractShortToken (("a_b_xW7LcT_11L6").data) = some (("xW7LcT").data) ∧
    extractLongToken (("a_b_xW7LcT_11L6").data) =
      (splitOnChar '_' (("a_b_xW7LcT_11L6").data)).getLastD [] := by
  have hp := extract_right_anchored.2 (JSVal.str ("a_b").data) (JSVal.str ("x").data)
      (JSVal.num ((6 : ℕ) : ℚ)) (JSVal.num ((4 : ℕ) : ℚ)) [1, 2, 3, 4, 5, 6] [0, 0, 250, 251]
      ⟨("xW7LcT").data, ("11L6").data,
        ("dc55b2ef65b13acf6c8c1830c6e113005f2bb63ee1557857dcee98d7513aec6f").data,
        ("a_b_xW7LcT_11L6").data⟩ rfl (by decide)
  have hg := extract_right_anchored.1 (("a_b_xW7LcT_11L6").data) (by decide)
  exact ⟨hp.1, hp.2, hg.1⟩

/-- C7 (corrected) counterexample: with `shortTokenPrefix = "abcd"` and
`shortTokenLength` omitted (claimed default 8), the short token is the full
prefix plus the full encoding, length 15 — the combined string is not
truncated to the default budget. -/
theorem shortTokenPrefix_budget_cex :
    (generateAPIKey (some ⟨JSVal.str ("a").data, JSVal.str ("abcd").data, JSVal.undefined,
        JSVal.undefined⟩) (List.replicate 8 255) (List.replicate 24 255)).map
      (fun k => k.shortToken) = Except.ok (("abcdjpXCZedGfVQ").data) ∧
    ("abcdjpXCZedGfVQ").data.length = 15 ∧ ¬(15 ≤ 8) := by
  exact ⟨rfl, rfl, by decide⟩

/-- C7 (amended): when `shortTokenLength` is a number `n`, the combined
prefix-plus-encoding string is truncated to length exactly `n` and the
short token starts with `shortTokenPrefix` or a prefix of it; when
`shortTokenLength` is omitted, the full prefix is prepended to the full
encoding with no truncation at all. -/
theorem shortTokenPrefix_budget (kp stp stl ltl : JSVal) (sb lb : List ℕ) (k : APIKey)
    (h : generateAPIKey (some ⟨kp, stp, stl, ltl⟩) sb lb = Except.ok k) :
    (∀ n : ℕ, stl = JSVal.num (n : ℚ) →
      k.shortToken.length = n ∧
      k.shortToken.take ((strOf stp).length) = (strOf stp).take n) ∧
    (stl = JSVal.undefined → k.shortToken = strOf stp ++ bs58encode sb) := by
  obtain ⟨hv, stlN, ltlN, hs, hl, hk⟩ := generateAPIKey_ok kp stp stl ltl sb lb k h
  subst hk
  constructor
  · rintro n rfl
    rw [effectiveLen_natCast] at hs
    obtain rfl : stlN = some n := (Option.some.inj hs).symm
    have hxlen : (jsSliceTo (jsPadStart (bs58encode sb) (some n) '0') (some n)).length = n :=
      jsSliceTo_length _ _ (jsPadStart_le_length _ _ _)
    constructor
    · show (jsSliceTo (strOf stp ++ jsSliceTo (jsPadStart (bs58encode sb) (some n) '0') (some n))
          (some n)).length = n
      apply jsSliceTo_length
      rw [List.length_append, hxlen]
      omega
    · show ((strOf stp ++ jsSliceTo (jsPadStart (bs58encode sb) (some n) '0') (some n)).take n).take
          ((strOf stp).length) = (strOf stp).take n
      rw [List.take_take, take_append_left _ _ _ (Nat.min_le_left _ _), take_min_length]
  · rintro rfl
    rw [effectiveLen_undefined] at hs
    obtain rfl : stlN = none := (Option.some.inj hs).symm
    rfl

/-- C7 witness: with prefix `"x"` and length 6, the short token has length 6
and starts with the prefix. -/
theorem shortTokenPrefix_budget_witness :
    ("xW7LcT").data.length = 6 ∧
    ("xW7LcT").data.take (("x").data.length) = ("x").data.take 6 := by
  have h := shortTokenPrefix_budget (JSVal.str ("a_b").data) (JSVal.str ("x").data)
      (JSVal.num ((6 : ℕ) : ℚ)) (JSVal.num ((4 : ℕ) : ℚ)) [1, 2, 3, 4, 5, 6] [0, 0, 250, 251]
      ⟨("xW7LcT").data, ("11L6").data,
        ("dc55b2ef65b13acf6c8c1830c6e113005f2bb63ee1557857dcee98d7513aec6f").data,
        ("a_b_xW7LcT_11L6").data⟩ rfl
  have h6 := h.1 6 rfl
  exact ⟨h6.1, h6.2⟩

/-- C8 (corrected) counterexample: the hash of the documented example token
is 64 hex characters long, not 65 as the claim states. -/
theorem known_token_hash_length_cex :
    (getTokenComponents (("my_company_BRTRKFsL_51FwqftsmMDHHbJAMEXXHCgG").data)).longTokenHash.length
      = 64 ∧ ¬((64 : ℕ) = 65) := by
  exact ⟨rfl, by decide⟩

/-- C8 (amended): `getTokenComponents` on the documented example token
returns exactly the documented components, the hash being the standard
64-hex-character SHA-256 digest. -/
theorem known_token_components :
    getTokenComponents (("my_company_BRTRKFsL_51FwqftsmMDHHbJAMEXXHCgG").data) =
      ⟨("51FwqftsmMDHHbJAMEXXHCgG").data, some (("BRTRKFsL").data),
        ("d70d981d87b449c107327c2a2afbf00d4b58070d6ba571aac35d7ea3e7c79f37").data,
        ("my_company_BRTRKFsL_51FwqftsmMDHHbJAMEXXHCgG").data⟩ ∧
    ("d70d981d87b449c107327c2a2afbf00d4b58070d6ba571aac35d7ea3e7c79f37").data.length = 64 := by
  exact ⟨rfl, rfl⟩

/-- C9: `hashLongToken` is a deterministic, unkeyed function of its input:
equal inputs always produce equal digests. -/
theorem hashLongToken_deterministic (s1 s2 : List Char) (h : s1 = s2) :
    hashLongToken s1 = hashLongToken s2 :=
  congrArg hashLongToken h

/-- C9 witness: determinism at a concrete input. -/
theorem hashLongToken_deterministic_witness :
    ("abc").data = ("abc").data ∧
    hashLongToken (("abc").data) = hashLongToken (("abc").data) :=
  ⟨rfl, hashLongToken_deterministic (("abc").data) (("abc").data) rfl⟩

/-- C10: on a token with no underscore, `extractLongToken` returns the whole
input, `extractShortToken` returns `none` (JavaScript `undefined`), neither
throws (both are total), and `getTokenComponents` returns the whole input as
`longToken` with its digest. -/
theorem no_underscore_token_behavior (t : List Char) (h : '_' ∉ t) :
    extractLongToken t = t ∧ extractShortToken t = none ∧
    getTokenComponents t = ⟨t, none, hashLongToken t, t⟩ := by
  have hs := splitOnChar_of_not_mem '_' t h
  refine ⟨?_, ?_, ?_⟩
  · simp [extractLongToken, hs]
  · simp [extractShortToken, hs]
  · simp [getTokenComponents, extractLongToken, extractShortToken, hs]

/-- C10 witness: behavior at the underscore-free token `"abc"`. -/
theorem no_underscore_token_behavior_witness :
    ¬('_' ∈ ("abc").data) ∧
    (extractLongToken (("abc").data) = ("abc").data ∧
      extractShortToken (("abc").data) = none ∧
      getTokenComponents (("abc").data) =
        ⟨("abc").data, none, hashLongToken (("abc").data), ("abc").data⟩) :=
  ⟨by decide, no_underscore_token_behavior (("abc").data) (by decide)⟩

end PrefixedApiKey
